import Mathlib

/-!
Verification of the calculation core of the O-ring / dovetail gland analyzer
(`src/script.js`).

The engineering core of the script is a handful of pure functions:
unit conversion (`convert`), circular-segment and dovetail cross-section
geometry (`circularSegmentArea`, `dovetailCrossSection`), the master
calculation (`calculateDovetail`) together with the temperature-list
construction of `runCalculation`, the warning evaluator (`evaluateWarnings`)
and the AS568 catalog parser (`parseAs568Csv`).  Each is embedded below as a
Lean function over exact numbers: lengths, angles and derived quantities are
real numbers, temperatures and catalog values are rationals, and units are
the strings the script passes around.

JavaScript arithmetic never throws: a division by zero produces an infinity
or NaN that silently propagates.  Where a function of the script can produce
such a non-finite number from finite inputs (the division by `Math.tan` in
`dovetailCrossSection` and the quantities derived from it), the embedding
returns `Option ℝ`, with `none` standing for a non-finite result; everywhere
else the script's arithmetic is total on finite inputs and the embedding is a
plain real-valued function.
-/

namespace DovetailGland

/-! ## Constants (src/script.js, lines 36-40) -/

noncomputable def PI : ℝ := Real.pi

/-- Length conversion factor, `IN_TO_MM = 25.4`. -/
def IN_TO_MM : ℚ := 25.4

/-- Canonical ambient temperature anchor in Celsius, `AMBIENT = 23`. -/
def AMBIENT : ℚ := 23

/-! ## UnitConverter (src/script.js, lines 100-115)

`convert(value, from, to)` first checks `Number.isFinite` (our `ℚ` argument
is always finite, so that guard never fires here), returns the value
unchanged when the units are equal, applies one of the four length and
temperature rules, and otherwise falls through to `return num`, handing the
number back unchanged. -/

def convert (value : ℚ) (fromUnit toUnit : String) : ℚ :=
  if fromUnit = toUnit then value
  else if fromUnit = "in" ∧ toUnit = "mm" then value * IN_TO_MM
  else if fromUnit = "mm" ∧ toUnit = "in" then value / IN_TO_MM
  else if fromUnit = "C" ∧ toUnit = "F" then value * 9 / 5 + 32
  else if fromUnit = "F" ∧ toUnit = "C" then (value - 32) * 5 / 9
  else value

/-! ## GeometryEngine (src/script.js, lines 593-610) -/

/-- Circular segment area (src/script.js, lines 594-599):
`theta` is the angle in radians, `h = r * (1 - cos(theta / 2))` the chord
height; the function returns `0` when `h ≤ 0`, and otherwise
`r * r * acos((r - h) / r) - (r - h) * sqrt(2 * r * h - h * h)`. -/
noncomputable def circularSegmentArea (r angle : ℝ) : ℝ :=
  let theta := angle * PI / 180
  let h := r * (1 - Real.cos (theta / 2))
  if h ≤ 0 then 0
  else r * r * Real.arccos ((r - h) / r) - (r - h) * Real.sqrt (2 * r * h - h * h)

/-! ### Analytic helper lemmas for the segment area -/

/-- On `[-1, 1)` the function `arccos` strictly dominates `c * sqrt (1 - c ^ 2)`,
which is `cos A * sin A = sin (2 * A) / 2` at `A = arccos c`. -/
lemma mul_sqrt_lt_arccos {c : ℝ} (h1 : -1 ≤ c) (h2 : c < 1) :
    c * Real.sqrt (1 - c ^ 2) < Real.arccos c := by
  set A := Real.arccos c with hA
  have hApos : 0 < A := Real.arccos_pos.mpr h2
  have hcos : Real.cos A = c := Real.cos_arccos h1 h2.le
  have hsin : Real.sin A = Real.sqrt (1 - c ^ 2) := Real.sin_arccos c
  have hdouble : Real.sin (2 * A) = 2 * Real.sin A * Real.cos A := Real.sin_two_mul A
  have hlt : Real.sin (2 * A) < 2 * A := Real.sin_lt (by linarith)
  have key : Real.sin A * Real.cos A < A := by linarith [hdouble ▸ hlt]
  rw [hsin, hcos] at key
  calc c * Real.sqrt (1 - c ^ 2) = Real.sqrt (1 - c ^ 2) * c := by ring
    _ < A := key

/-- Closed form of the segment area on the non-degenerate branch: with
`c = cos (angle * PI / 180 / 2) < 1` and `0 < r`, the area equals
`r ^ 2 * (arccos c - c * sqrt (1 - c ^ 2))`. -/
lemma circularSegmentArea_eq {r angle : ℝ} (hr : 0 < r)
    (hc : Real.cos (angle * PI / 180 / 2) < 1) :
    circularSegmentArea r angle =
      r ^ 2 * (Real.arccos (Real.cos (angle * PI / 180 / 2)) -
        Real.cos (angle * PI / 180 / 2) *
          Real.sqrt (1 - Real.cos (angle * PI / 180 / 2) ^ 2)) := by
  simp only [circularSegmentArea]
  set c := Real.cos (angle * PI / 180 / 2) with hcdef
  have hc1 : -1 ≤ c := Real.neg_one_le_cos _
  have hh : r * (1 - c) > 0 := mul_pos hr (by linarith)
  rw [if_neg (by linarith)]
  have hrne : r ≠ 0 := ne_of_gt hr
  have harg : (r - r * (1 - c)) / r = c := by field_simp; ring
  have hrad : 2 * r * (r * (1 - c)) - r * (1 - c) * (r * (1 - c)) = r ^ 2 * (1 - c ^ 2) := by
    ring
  have hsqrt : Real.sqrt (2 * r * (r * (1 - c)) - r * (1 - c) * (r * (1 - c)))
      = r * Real.sqrt (1 - c ^ 2) := by
    rw [hrad, Real.sqrt_mul (sq_nonneg r), Real.sqrt_sq hr.le]
  rw [harg, hsqrt]
  ring

/-- The segment area is strictly positive whenever the radius is positive and
the half-angle has cosine strictly below 1. -/
lemma circularSegmentArea_pos_of {r angle : ℝ} (hr : 0 < r)
    (hc : Real.cos (angle * PI / 180 / 2) < 1) :
    0 < circularSegmentArea r angle := by
  rw [circularSegmentArea_eq hr hc]
  have hc1 : -1 ≤ Real.cos (angle * PI / 180 / 2) := Real.neg_one_le_cos _
  have := mul_sqrt_lt_arccos hc1 hc
  nlinarith [sq_nonneg r, pow_pos hr 2]

/-- The segment area is never negative, whatever the inputs. -/
lemma circularSegmentArea_nonneg (r angle : ℝ) : 0 ≤ circularSegmentArea r angle := by
  by_cases hh : r * (1 - Real.cos (angle * PI / 180 / 2)) ≤ 0
  · simp only [circularSegmentArea]
    rw [if_pos hh]
  · push_neg at hh
    have hcle : Real.cos (angle * PI / 180 / 2) ≤ 1 := Real.cos_le_one _
    rcases mul_pos_iff.mp hh with ⟨hr, h1c⟩ | ⟨_, h1c⟩
    · exact (circularSegmentArea_pos_of hr (by linarith)).le
    · linarith

/-- Dovetail cross-section area (src/script.js, lines 602-610).

The script computes `topWidth = gw + 2 * (gd / Math.tan(angRad))`,
`A_trap = 0.5 * (gw + topWidth) * gd`, adds twice the top corner segment
area, subtracts twice the bottom one, adds the gap rectangle
`(gw + 2 * rTop) * gap`, and returns the sum.  It has no error path.  The
division `gd / Math.tan(angRad)` is non-finite exactly where the tangent
vanishes, at angles that are multiples of 180 degrees, i.e. where
`sin angRad = 0`; there JavaScript produces an infinity (or NaN when
`gd = 0`) that propagates to the returned sum, modeled here as `none`.  At a
tangent pole (90 degrees) JavaScript's huge `Math.tan` makes the quotient
vanish, which agrees with Lean's conventions `Real.tan (PI / 2) = 0` and
`gd / 0 = 0`, so the `some` branch is faithful there as well. -/
noncomputable def dovetailCrossSection (gw gd ang rTop rBottom gap : ℝ) : Option ℝ :=
  let angRad := ang * PI / 180
  if Real.sin angRad = 0 then none
  else
    let topWidth := gw + 2 * (gd / Real.tan angRad)
    let A_trap := 0.5 * (gw + topWidth) * gd
    let A_top := 2 * circularSegmentArea rTop ang
    let A_bottom := 2 * circularSegmentArea rBottom ang
    let A_gap := (gw + 2 * rTop) * gap
    some (A_trap + A_top - A_bottom + A_gap)

/-! ## ThermalCalculator (src/script.js, lines 616-641) -/

/-- Geometry and material inputs gathered by `runCalculation`
(src/script.js, lines 968-979). -/
structure DovetailParams where
  cs : ℝ
  id : ℝ
  gw : ℝ
  gd : ℝ
  angle : ℝ
  rTop : ℝ
  rBottom : ℝ
  gap : ℝ
  centerline : ℝ
  alpha : ℝ

/-- One per-temperature entry of the calculation output:
`{ tempC, compressionPct, glandFillPct }`.  The gland fill inherits the
possible non-finiteness of the dovetail cross-section area. -/
structure TemperatureResult where
  tempC : ℚ
  compressionPct : ℝ
  glandFillPct : Option ℝ

/-- The calculation output `{ stretchPct, glandVolume, temperatureResults }`. -/
structure CalculationResult where
  stretchPct : ℝ
  glandVolume : Option ℝ
  temperatureResults : List TemperatureResult

/-- Master calculation (src/script.js, lines 616-641): stretch percentage,
torus o-ring volume, gland volume as cross-section area times `PI` times the
centerline, and one compression / gland-fill entry per temperature, with
`dT = tempC - AMBIENT`. -/
noncomputable def calculateDovetail (p : DovetailParams) (tempsList : List ℚ) :
    CalculationResult :=
  let temps := if tempsList.isEmpty then [AMBIENT] else tempsList
  let stretchPct := ((p.centerline - (p.id + p.cs)) / (p.id + p.cs)) * 100
  let r := p.cs / 2
  let R := (p.id + p.cs) / 2
  let oringVolume := 2 * PI * PI * r * r * R
  let crossArea := dovetailCrossSection p.gw p.gd p.angle p.rTop p.rBottom p.gap
  let glandVolume := crossArea.map (fun a => a * PI * p.centerline)
  let results := temps.map (fun (tempC : ℚ) =>
    let dT : ℝ := (tempC : ℝ) - ((AMBIENT : ℚ) : ℝ)
    let expandedCS := p.cs * (1 + p.alpha * dT)
    let expandedVol := oringVolume * (1 + 3 * p.alpha * dT)
    { tempC := tempC
      compressionPct := (1 - p.gd / expandedCS) * 100
      glandFillPct := glandVolume.map (fun gv => expandedVol / gv * 100) })
  { stretchPct := stretchPct, glandVolume := glandVolume,
    temperatureResults := results }

/-! ## WarningEvaluator (src/script.js, lines 644-657)

The script pushes human-readable strings; the embedding keeps each distinct
push site as a constructor carrying the temperature interpolated into the
message, so that message identity is decidable. -/

inductive WarnMsg where
  | stretchLoose
  | stretchExceeds
  | compressionLow (tempC : ℚ)
  | compressionHigh (tempC : ℚ)
  | glandOverfill (tempC : ℚ)
deriving DecidableEq

/-- Warnings contributed by one temperature entry (the `forEach` body,
src/script.js, lines 650-654).  A non-finite gland fill is NaN in the
script, and `NaN > 95` is false, so `none` contributes no overfill warning. -/
noncomputable def temperatureWarnings (t : TemperatureResult) : List WarnMsg :=
  (if t.compressionPct < 15 then [WarnMsg.compressionLow t.tempC] else [])
  ++ (if t.compressionPct > 30 then [WarnMsg.compressionHigh t.tempC] else [])
  ++ (match t.glandFillPct with
      | some v => if v > 95 then [WarnMsg.glandOverfill t.tempC] else []
      | none => [])

/-- Warning rules (src/script.js, lines 644-657): the loose warning when
`stretchPct < 0`, else the exceeds warning when `stretchPct > 5`, then the
per-temperature compression and gland-fill warnings. -/
noncomputable def evaluateWarnings (out : CalculationResult) : List WarnMsg :=
  (if out.stretchPct < 0 then [WarnMsg.stretchLoose]
   else if out.stretchPct > 5 then [WarnMsg.stretchExceeds]
   else [])
  ++ out.temperatureResults.flatMap temperatureWarnings

/-! ## Temperature list construction (src/script.js, lines 981-993)

`runCalculation` starts from `[AMBIENT]`, appends whichever of min / nominal
/ max temperatures are finite, de-duplicates the appended part with
`new Set` (keeping first occurrences) and sorts it ascending with
`(a, b) => a - b`; the ambient anchor stays first and outside the sort. -/

/-- First-occurrence de-duplication, the order `[...new Set(list)]` keeps. -/
def jsSetDedup : List ℚ → List ℚ
  | [] => []
  | x :: xs => x :: jsSetDedup (xs.filter (fun y => decide (y ≠ x)))
termination_by l => l.length
decreasing_by
  simp only [List.length_cons]
  exact Nat.lt_succ_of_le (List.length_filter_le _ xs)

/-- The final temperature list `[tAmbientC, ...uniqSorted]` of
`runCalculation`; `none` stands for an absent or non-finite field
(`readTempC` returning NaN). -/
def buildTemperatureList (tMin tNom tMax : Option ℚ) : List ℚ :=
  let temps : List ℚ := AMBIENT :: [tMin, tNom, tMax].filterMap id
  let uniqSorted := List.insertionSort (· ≤ ·) (jsSetDedup temps.tail)
  AMBIENT :: uniqSorted

lemma jsSetDedup_mem : ∀ (l : List ℚ) (a : ℚ), a ∈ jsSetDedup l ↔ a ∈ l := by
  intro l
  induction l using jsSetDedup.induct with
  | case1 => intro a; simp [jsSetDedup]
  | case2 x xs ih =>
    intro a
    simp only [decide_not] at ih
    by_cases hax : a = x
    · subst hax; simp [jsSetDedup]
    · simp [jsSetDedup, hax, ih a, List.mem_filter]

lemma jsSetDedup_nodup : ∀ l : List ℚ, (jsSetDedup l).Nodup := by
  intro l
  induction l using jsSetDedup.induct with
  | case1 => simp [jsSetDedup]
  | case2 x xs ih =>
    rw [jsSetDedup, List.nodup_cons]
    refine ⟨fun hx => ?_, ih⟩
    rw [jsSetDedup_mem, List.mem_filter] at hx
    simp at hx

/-! ## CatalogParser (src/script.js, lines 736-766)

The parser works on the raw text.  The embedding operates on the text's
character list with structural-recursive counterparts of the string
operations the script uses (`trim`, `split`, `toLowerCase`, `Number`), so
that every function here is executable. -/

/-- Leading byte-order-mark removal, `text.replace of a leading U+FEFF`. -/
def stripBOM : List Char → List Char
  | [] => []
  | c :: cs => if c = '\uFEFF' then cs else c :: cs

/-- Whitespace trimming at both ends, as `String.prototype.trim`. -/
def jsTrim (cs : List Char) : List Char :=
  ((cs.dropWhile Char.isWhitespace).reverse.dropWhile Char.isWhitespace).reverse

/-- Splitting on a separator character, as `String.prototype.split(",")`. -/
def splitOnChar (sep : Char) : List Char → List (List Char)
  | [] => [[]]
  | c :: cs =>
    let rest := splitOnChar sep cs
    if c = sep then [] :: rest
    else (c :: rest.headD []) :: rest.tail

/-- Splitting on `/\r?\n/`: a newline, optionally preceded by a carriage
return, separates lines. -/
def splitLines : List Char → List (List Char)
  | [] => [[]]
  | '\r' :: '\n' :: cs => [] :: splitLines cs
  | '\n' :: cs => [] :: splitLines cs
  | c :: cs =>
    let rest := splitLines cs
    (c :: rest.headD []) :: rest.tail

/-- Numeric value of a digit run, most significant first. -/
def digitsVal (ds : List Char) : ℕ :=
  ds.foldl (fun n c => 10 * n + (c.toNat - 48)) 0

/-- Model of JavaScript `Number(string)` on the decimal-literal fragment the
catalog uses: after trimming, the empty string is `0`, an optional sign
followed by digits with an optional fractional part is its exact rational
value, and anything else (such as `abc`) is NaN, modeled as `none`.
(Exponent and radix-prefixed forms, which never occur in the catalog, are
not modeled.) -/
def jsNumber (cs : List Char) : Option ℚ :=
  let t := jsTrim cs
  if t.isEmpty then some 0
  else
    let signed : ℚ × List Char :=
      match t with
      | '-' :: r => (-1, r)
      | '+' :: r => (1, r)
      | r => (1, r)
    let sign := signed.1
    let rest := signed.2
    let intPart := rest.takeWhile Char.isDigit
    match rest.drop intPart.length with
    | [] => if intPart.isEmpty then none else some (sign * digitsVal intPart)
    | '.' :: frac =>
      if frac.all Char.isDigit ∧ ¬(intPart.isEmpty ∧ frac.isEmpty) then
        some (sign * ((digitsVal intPart : ℚ) + (digitsVal frac : ℚ) / 10 ^ frac.length))
      else none
    | _ => none

/-- A parsed catalog row `{ dash, cs, id }`. -/
structure CatalogRow where
  dash : String
  cs : ℚ
  id : ℚ
deriving DecidableEq

/-- A maximal leading digit run. -/
def digitRun (cs : List Char) : List Char := cs.takeWhile Char.isDigit

/-- Tokens of the numeric-aware ordering: digit runs carry their value and
length, other characters stand for themselves. -/
inductive NatToken where
  | num (val : ℕ) (len : ℕ)
  | ch (c : Char)
deriving DecidableEq

def tokenizeNat : List Char → List NatToken
  | [] => []
  | c :: cs =>
    if h : c.isDigit then
      let run := digitRun (c :: cs)
      NatToken.num (digitsVal run) run.length :: tokenizeNat ((c :: cs).drop run.length)
    else NatToken.ch c :: tokenizeNat cs
termination_by l => l.length
decreasing_by
  · simp only [List.length_drop, List.length_cons]
    have h1 : 1 ≤ (digitRun (c :: cs)).length := by
      unfold digitRun
      rw [List.takeWhile_cons_of_pos h]
      simp
    omega
  · simp

def tokenCmp : NatToken → NatToken → Ordering
  | NatToken.num v1 l1, NatToken.num v2 l2 =>
    match compare v1 v2 with
    | Ordering.eq => compare l1 l2
    | o => o
  | NatToken.num _ _, NatToken.ch _ => Ordering.lt
  | NatToken.ch _, NatToken.num _ _ => Ordering.gt
  | NatToken.ch a, NatToken.ch b => compare a b

def lexCmp : List NatToken → List NatToken → Ordering
  | [], [] => Ordering.eq
  | [], _ :: _ => Ordering.lt
  | _ :: _, [] => Ordering.gt
  | a :: as, b :: bs =>
    match tokenCmp a b with
    | Ordering.eq => lexCmp as bs
    | o => o

/-- Model of `localeCompare(dash, "en", numeric: true)`: digit substrings
compare by magnitude, other characters by code point. -/
def naturalCompare (a b : List Char) : Ordering :=
  lexCmp (tokenizeNat a) (tokenizeNat b)

/-- The sort relation `rows.sort((a, b) => a.dash.localeCompare(b.dash, ...))`
induces. -/
def naturalLE (a b : CatalogRow) : Prop :=
  naturalCompare a.dash.data b.dash.data ≠ Ordering.gt

instance : DecidableRel naturalLE := fun a b => by
  unfold naturalLE
  infer_instance

/-- Header synonym lookup (src/script.js, line 744): the first synonym, in
synonym order, present in the header. -/
def findColumn (syns : List (List Char)) (header : List (List Char)) : Option ℕ :=
  (syns.filterMap (fun k => header.indexOf? k)).head?

/-- The per-line body of the row loop (src/script.js, lines 751-762): a line
yields a row unless it is blank, has too few columns, has an empty dash, or
has a cross-section or inner-diameter column that is not a finite number. -/
def parseRow (iDash iCS iID : ℕ) (line : List Char) : Option CatalogRow :=
  if (jsTrim line).isEmpty then none
  else
    let cols := (splitOnChar ',' line).map jsTrim
    if cols.length ≤ max iDash (max iCS iID) then none
    else
      let dash := cols.getD iDash []
      if dash.isEmpty then none
      else
        match jsNumber (cols.getD iCS []), jsNumber (cols.getD iID []) with
        | some cs, some id => some { dash := String.mk dash, cs := cs, id := id }
        | _, _ => none

/-- AS568 CSV parser (src/script.js, lines 736-766).  When a required column
is missing from the header, the script's `Math.max(undefined, ...)` guard is
NaN (never skips) and `cols[undefined]` is undefined, so the dash check drops
every row; the embedding returns `[]` in that case. -/
def parseAs568Csv (text : String) : List CatalogRow :=
  let t := jsTrim (stripBOM text.data)
  if t.isEmpty then []
  else
    let lines := splitLines t
    let headerLine := lines.headD []
    let header := (splitOnChar ',' headerLine).map (fun h => (jsTrim h).map Char.toLower)
    let iDash := findColumn ["dash".data, "dash size".data] header
    let iCS := findColumn
      ["cs".data, "o-ring cross section size".data, "o-ring cross section".data] header
    let iID := findColumn
      ["id".data, "o-ring internal diameter size".data, "o-ring internal diameter".data] header
    match iDash, iCS, iID with
    | some d, some c, some i =>
      List.insertionSort naturalLE (lines.tail.filterMap (parseRow d c i))
    | _, _, _ => []

/-! ## Further helper lemmas -/

/-- The segment area is strictly positive for a positive radius and an
included angle strictly between 0 and 360 degrees. -/
lemma circularSegmentArea_pos_deg {r a : ℝ} (hr : 0 < r) (h0 : 0 < a)
    (h360 : a < 360) : 0 < circularSegmentArea r a := by
  apply circularSegmentArea_pos_of hr
  have hpi := Real.pi_pos
  have hy0 : 0 < a * PI / 180 / 2 := by
    unfold PI
    have h := mul_pos h0 hpi
    linarith
  have hyp : a * PI / 180 / 2 ≤ Real.pi := by
    unfold PI
    nlinarith [mul_pos (by linarith : (0 : ℝ) < 360 - a) hpi]
  have h := Real.cos_lt_cos_of_nonneg_of_le_pi (le_refl 0) hyp hy0
  rw [Real.cos_zero] at h
  exact h

/-- The segment area is an even function of the angle: the angle enters only
through the cosine of the half-angle. -/
lemma circularSegmentArea_neg (r a : ℝ) :
    circularSegmentArea r (-a) = circularSegmentArea r a := by
  simp only [circularSegmentArea, neg_mul, neg_div, Real.cos_neg]

/-- Closed form of the per-temperature entries of `calculateDovetail`, with
the nominal torus volume written as the spec writes it. -/
lemma temperatureResults_eq (p : DovetailParams) (ts : List ℚ) :
    (calculateDovetail p ts).temperatureResults
      = (if ts.isEmpty then [AMBIENT] else ts).map (fun T =>
          { tempC := T
            compressionPct :=
              (1 - p.gd / (p.cs * (1 + p.alpha * ((T : ℝ) - 23)))) * 100
            glandFillPct :=
              (dovetailCrossSection p.gw p.gd p.angle p.rTop p.rBottom p.gap).map
                (fun a =>
                  (2 * PI ^ 2 * (p.cs / 2) ^ 2 * ((p.id + p.cs) / 2)
                      * (1 + 3 * p.alpha * ((T : ℝ) - 23)))
                    / (a * PI * p.centerline) * 100) }) := by
  simp only [calculateDovetail]
  refine List.map_congr_left fun T _ => ?_
  have hc : ((AMBIENT : ℚ) : ℝ) = 23 := by norm_num [AMBIENT]
  rw [Option.map_map]
  simp only [TemperatureResult.mk.injEq, hc, true_and, and_true,
    eq_self_iff_true]
  congr 1
  funext a
  simp only [Function.comp]
  ring

/-- Mapping each entry of the output back to its temperature recovers the
input list, when that list is non-empty. -/
lemma calculateDovetail_map_tempC (p : DovetailParams) (ts : List ℚ)
    (h : ts ≠ []) :
    (calculateDovetail p ts).temperatureResults.map TemperatureResult.tempC
      = ts := by
  simp only [calculateDovetail]
  rw [if_neg (by simpa using h)]
  rw [List.map_map]
  exact List.map_id ts

lemma stretchLoose_not_mem_temperatureWarnings (t : TemperatureResult) :
    WarnMsg.stretchLoose ∉ temperatureWarnings t := by
  unfold temperatureWarnings
  rcases h : t.glandFillPct with _ | v <;> split_ifs <;> simp

lemma stretchExceeds_not_mem_temperatureWarnings (t : TemperatureResult) :
    WarnMsg.stretchExceeds ∉ temperatureWarnings t := by
  unfold temperatureWarnings
  rcases h : t.glandFillPct with _ | v <;> split_ifs <;> simp

/-! ## Claim theorems -/

/-- C1: the spec requires `dovetailCrossSection` to signal a
`DegenerateGeometry` failure at angles 0 and 180 degrees instead of silently
returning infinity or NaN.  The function has no error path: at both angles
the division by the vanishing tangent silently yields the non-finite sentinel
(`none`), which this theorem evaluates at the failing inputs. -/
theorem C1_dovetail_degenerate_angle_silently_nonfinite :
    dovetailCrossSection 2.5 1.8 0 0.3 0.2 0.1 = none
    ∧ dovetailCrossSection 2.5 1.8 180 0.3 0.2 0.1 = none := by
  constructor
  · have h0 : (0 : ℝ) * PI / 180 = 0 := by ring
    simp [dovetailCrossSection, h0]
  · have h1 : (180 : ℝ) * PI / 180 = Real.pi := by
      unfold PI; ring
    simp [dovetailCrossSection, h1, Real.sin_pi]

/-- C3: the spec requires an `UnsupportedUnitPair` failure for a conversion
between units outside the supported pairs.  The code instead falls through to
`return num`: `convert(5, "mm", "F")` returns the number 5 unchanged. -/
theorem C3_convert_unsupported_pair_returns_the_number :
    convert 5 "mm" "F" = 5 := by
  rfl

/-- C4 counterexample: the claim says `circularSegmentArea` returns 0
whenever the angle is at most 0, but at radius 1 and angle -360 the cosine of
the half-angle is -1, the chord height is 2 > 0, and the function returns
`arccos (-1) = pi`, not 0. -/
theorem C4_counterexample_negative_angle :
    ¬ (circularSegmentArea 1 (-360) = 0) := by
  have hhalf : (-360 : ℝ) * PI / 180 / 2 = -Real.pi := by
    unfold PI; ring
  have key : circularSegmentArea 1 (-360) = Real.pi := by
    simp only [circularSegmentArea, hhalf, Real.cos_neg, Real.cos_pi]
    rw [if_neg (by norm_num)]
    norm_num [Real.arccos_neg_one, Real.sqrt_zero]
  rw [key]
  exact Real.pi_ne_zero

/-- C4 (amended): `circularSegmentArea r angle` returns 0 whenever `r ≤ 0` or
`angle = 0` (the `h ≤ 0` floor), and returns a strictly positive area
whenever `r > 0` and `0 < angle < 360`; for a negative angle with `r > 0` it
returns the positive area of the absolute angle rather than 0. -/
theorem C4_amended_zero_floor_and_positivity :
    (∀ r angle : ℝ, r ≤ 0 ∨ angle = 0 → circularSegmentArea r angle = 0)
    ∧ (∀ r angle : ℝ, 0 < r → 0 < angle → angle < 360 →
        0 < circularSegmentArea r angle) := by
  constructor
  · intro r angle h
    simp only [circularSegmentArea]
    rcases h with hr | ha
    · rw [if_pos]
      exact mul_nonpos_iff.mpr
        (Or.inr ⟨hr, by linarith [Real.cos_le_one (angle * PI / 180 / 2)]⟩)
    · subst ha
      rw [if_pos]
      simp
  · intro r angle hr h0 h360
    exact circularSegmentArea_pos_deg hr h0 h360

/-- C4 amended witness: the zero floor at `r = -1`, `angle = 90`, and strict
positivity at `r = 1`, `angle = 90`. -/
theorem C4_amended_witness :
    circularSegmentArea (-1) 90 = 0 ∧ 0 < circularSegmentArea 1 90 :=
  ⟨C4_amended_zero_floor_and_positivity.1 (-1) 90 (Or.inl (by norm_num)),
   C4_amended_zero_floor_and_positivity.2 1 90 (by norm_num) (by norm_num)
     (by norm_num)⟩

/-- C9: for every finite value and every supported ordered unit pair, the
round-trip conversion is the identity — exactly, hence within any
floating-point tolerance. -/
theorem C9_convert_round_trip (v : ℚ) :
    convert (convert v "in" "mm") "mm" "in" = v
    ∧ convert (convert v "mm" "in") "in" "mm" = v
    ∧ convert (convert v "C" "F") "F" "C" = v
    ∧ convert (convert v "F" "C") "C" "F" = v := by
  refine ⟨?_, ?_, ?_, ?_⟩ <;> simp [convert, IN_TO_MM] <;> ring

/-- C10: `circularSegmentArea` is even in its angle argument, since the angle
enters only through `cos (theta / 2)`; consequently a negative included angle
between -360 and 0 with a positive radius yields the same strictly positive
area as its absolute value, not 0. -/
theorem C10_segment_area_even_in_angle :
    (∀ r a : ℝ, circularSegmentArea r (-a) = circularSegmentArea r a)
    ∧ (∀ r a : ℝ, 0 < r → -360 < a → a < 0 →
        circularSegmentArea r a = circularSegmentArea r (-a)
        ∧ 0 < circularSegmentArea r a) := by
  refine ⟨circularSegmentArea_neg, fun r a hr hlo hhi => ?_⟩
  have heven : circularSegmentArea r a = circularSegmentArea r (-a) := by
    conv_lhs => rw [show a = -(-a) by ring]
    exact circularSegmentArea_neg r (-a)
  refine ⟨heven, ?_⟩
  rw [heven]
  exact circularSegmentArea_pos_deg hr (by linarith) (by linarith)

/-- C10 witness: at radius 1 and angle -90 the area agrees with the area at
90 degrees and is strictly positive. -/
theorem C10_segment_area_even_witness :
    circularSegmentArea 1 (-90) = circularSegmentArea 1 (-(-90))
    ∧ 0 < circularSegmentArea 1 (-90) :=
  C10_segment_area_even_in_angle.2 1 (-90) (by norm_num) (by norm_num)
    (by norm_num)

/-- C2: for every combination of supplied optional temperatures, the
calculation output has the ambient 23 °C entry first, and the remaining
entries are exactly the supplied temperatures, de-duplicated and sorted
strictly ascending. -/
theorem C2_ambient_first_then_sorted_unique_temps
    (tMin tNom tMax : Option ℚ) (p : DovetailParams) :
    ∃ rest : List ℚ,
      (calculateDovetail p
          (buildTemperatureList tMin tNom tMax)).temperatureResults.map
        TemperatureResult.tempC = 23 :: rest
      ∧ List.Sorted (· < ·) rest
      ∧ (∀ t : ℚ, t ∈ rest ↔ t ∈ [tMin, tNom, tMax].filterMap id) := by
  refine ⟨List.insertionSort (· ≤ ·)
    (jsSetDedup ([tMin, tNom, tMax].filterMap id)), ?_, ?_, ?_⟩
  · have hb : buildTemperatureList tMin tNom tMax
        = 23 :: List.insertionSort (· ≤ ·)
            (jsSetDedup ([tMin, tNom, tMax].filterMap id)) := rfl
    rw [calculateDovetail_map_tempC p _ (by rw [hb]; exact List.cons_ne_nil _ _)]
    exact hb
  · have hnd : (List.insertionSort (· ≤ ·)
        (jsSetDedup ([tMin, tNom, tMax].filterMap id))).Nodup :=
      (List.perm_insertionSort _ _).nodup_iff.mpr (jsSetDedup_nodup _)
    exact (List.sorted_insertionSort _ _).lt_of_le hnd
  · intro t
    rw [(List.perm_insertionSort (· ≤ ·) _).mem_iff, jsSetDedup_mem]

/-- Concrete geometry of the spec's worked example: cs 2.0 mm, id 50 mm,
gland width 2.5 mm, depth 1.8 mm, angle 45°, radii 0.3 / 0.2 mm, gap 0.1 mm,
centerline 52 mm, alpha 0.000175. -/
noncomputable def exampleParams : DovetailParams :=
  { cs := 2, id := 50, gw := 2.5, gd := 1.8, angle := 45, rTop := 0.3,
    rBottom := 0.2, gap := 0.1, centerline := 52, alpha := 0.000175 }

/-- C5: the stretch percentage is `((centerline - (id + cs)) / (id + cs)) * 100`
for every input, is computed once per request (it does not depend on the
temperature list), and on the worked example it is 0 while the 23 °C entry
has compression 10 % and a finite (`some`) gland fill. -/
theorem C5_stretch_formula_once_and_example :
    (∀ (p : DovetailParams) (ts : List ℚ),
      (calculateDovetail p ts).stretchPct
        = ((p.centerline - (p.id + p.cs)) / (p.id + p.cs)) * 100)
    ∧ (∀ (p : DovetailParams) (ts ts' : List ℚ),
      (calculateDovetail p ts).stretchPct
        = (calculateDovetail p ts').stretchPct)
    ∧ (calculateDovetail exampleParams []).stretchPct = 0
    ∧ ∃ e ∈ (calculateDovetail exampleParams []).temperatureResults,
        e.tempC = 23 ∧ e.compressionPct = 10 ∧ e.glandFillPct.isSome := by
  refine ⟨fun p ts => rfl, fun p ts ts' => rfl, ?_, ?_⟩
  · have h : (calculateDovetail exampleParams []).stretchPct
        = ((52 - (50 + 2)) / (50 + 2) : ℝ) * 100 := rfl
    rw [h]; norm_num
  · have hsin : ¬ Real.sin ((45 : ℝ) * PI / 180) = 0 := by
      rw [show (45 : ℝ) * PI / 180 = Real.pi / 4 by unfold PI; ring,
        Real.sin_pi_div_four]
      positivity
    rw [temperatureResults_eq]
    simp only [exampleParams, List.isEmpty_nil, if_pos, List.map_cons,
      List.map_nil, List.mem_singleton, dovetailCrossSection, hsin, if_neg,
      Option.map_some]
    refine ⟨_, rfl, ?_, ?_, ?_⟩
    · norm_num [AMBIENT]
    · norm_num [AMBIENT]
    · simp

/-- C6: every per-temperature entry carries
`compressionPct = (1 - glandDepth / (cs * (1 + alpha * dT))) * 100` and
`glandFillPct = expandedVolume / glandVolume * 100` with
`expandedVolume = 2 * pi ^ 2 * (cs / 2) ^ 2 * ((id + cs) / 2) * (1 + 3 * alpha * dT)`
and `glandVolume = crossSectionArea * pi * centerline`, where `dT = T - 23`. -/
theorem C6_per_temperature_formulas (p : DovetailParams) (ts : List ℚ) :
    (calculateDovetail p ts).glandVolume
      = (dovetailCrossSection p.gw p.gd p.angle p.rTop p.rBottom p.gap).map
          (fun a => a * PI * p.centerline)
    ∧ (calculateDovetail p ts).temperatureResults
      = (if ts.isEmpty then [AMBIENT] else ts).map (fun T =>
          { tempC := T
            compressionPct :=
              (1 - p.gd / (p.cs * (1 + p.alpha * ((T : ℝ) - 23)))) * 100
            glandFillPct :=
              (dovetailCrossSection p.gw p.gd p.angle p.rTop p.rBottom
                  p.gap).map
                (fun a =>
                  (2 * PI ^ 2 * (p.cs / 2) ^ 2 * ((p.id + p.cs) / 2)
                      * (1 + 3 * p.alpha * ((T : ℝ) - 23)))
                    / (a * PI * p.centerline) * 100) }) :=
  ⟨rfl, temperatureResults_eq p ts⟩

/-- C7: the evaluator returns the stretch-loose message iff `stretchPct < 0`
and the stretch-exceeds message iff `stretchPct > 5`; it never returns both,
and for `stretchPct` in `[0, 5]` it returns neither. -/
theorem C7_stretch_warning_rules (out : CalculationResult) :
    (WarnMsg.stretchLoose ∈ evaluateWarnings out ↔ out.stretchPct < 0)
    ∧ (WarnMsg.stretchExceeds ∈ evaluateWarnings out ↔ out.stretchPct > 5)
    ∧ ¬(WarnMsg.stretchLoose ∈ evaluateWarnings out
        ∧ WarnMsg.stretchExceeds ∈ evaluateWarnings out)
    ∧ (0 ≤ out.stretchPct ∧ out.stretchPct ≤ 5 →
        WarnMsg.stretchLoose ∉ evaluateWarnings out
        ∧ WarnMsg.stretchExceeds ∉ evaluateWarnings out) := by
  have hL : WarnMsg.stretchLoose
      ∉ out.temperatureResults.flatMap temperatureWarnings := by
    rw [List.mem_flatMap]
    rintro ⟨t, -, hmem⟩
    exact stretchLoose_not_mem_temperatureWarnings t hmem
  have hE : WarnMsg.stretchExceeds
      ∉ out.temperatureResults.flatMap temperatureWarnings := by
    rw [List.mem_flatMap]
    rintro ⟨t, -, hmem⟩
    exact stretchExceeds_not_mem_temperatureWarnings t hmem
  have h1 : WarnMsg.stretchLoose ∈ evaluateWarnings out
      ↔ out.stretchPct < 0 := by
    simp only [evaluateWarnings, List.mem_append]
    by_cases h0 : out.stretchPct < 0
    · simp [h0]
    · by_cases h5 : out.stretchPct > 5 <;> simp [h0, h5, hL]
  have h2 : WarnMsg.stretchExceeds ∈ evaluateWarnings out
      ↔ out.stretchPct > 5 := by
    simp only [evaluateWarnings, List.mem_append]
    by_cases h0 : out.stretchPct < 0
    · simp only [if_pos h0]
      simp [hE]
      linarith
    · by_cases h5 : out.stretchPct > 5 <;> simp [h0, h5, hE]
  refine ⟨h1, h2, ?_, ?_⟩
  · rintro ⟨ha, hb⟩
    rw [h1] at ha
    rw [h2] at hb
    linarith
  · rintro ⟨hge, hle⟩
    exact ⟨fun hm => absurd (h1.mp hm) (by linarith),
      fun hm => absurd (h2.mp hm) (by linarith)⟩

/-- A surviving catalog row always carries a non-empty dash identifier. -/
lemma parseRow_dash_ne_empty {iDash iCS iID : ℕ} {line : List Char}
    {row : CatalogRow} (h : parseRow iDash iCS iID line = some row) :
    row.dash ≠ "" := by
  simp only [parseRow] at h
  split_ifs at h with h1 h2 h3
  split at h
  · cases h
    intro hcon
    apply h3
    have hX := congrArg String.data hcon
    simp at hX
    simp [hX]
  · cases h

/-- C8: on the two-row example table the parser keeps exactly the good row
`004` and drops the row whose cs column is not a number; on an extended table
it also drops a blank row, a row with too few columns and a row with an empty
dash; and in general every surviving row has a non-empty dash identifier. -/
theorem C8_catalog_parser_drops_malformed :
    parseAs568Csv "Dash,CS,ID\n004,1.02,1.78\n1x3,abc,2.0"
      = [{ dash := "004", cs := 1.02, id := 1.78 }]
    ∧ parseAs568Csv "Dash,CS,ID\n004,1.02,1.78\n1x3,abc,2.0\n\n005,1.0\n,2.0,3.0"
      = [{ dash := "004", cs := 1.02, id := 1.78 }]
    ∧ ∀ (text : String) (row : CatalogRow),
        row ∈ parseAs568Csv text → row.dash ≠ "" := by
  refine ⟨by with_unfolding_all rfl, by with_unfolding_all rfl, ?_⟩
  intro text row hrow
  simp only [parseAs568Csv] at hrow
  split at hrow
  · simp at hrow
  · split at hrow
    · rw [(List.perm_insertionSort _ _).mem_iff, List.mem_filterMap] at hrow
      obtain ⟨line, -, hline⟩ := hrow
      exact parseRow_dash_ne_empty hline
    · simp at hrow

end DovetailGland
